import Mathlib

/-!
Shallow embedding of the OutreachIQ background execution core
(src/backend/src/bin/worker.rs and src/backend/src/services/) together with
proofs about its job queue, campaign scheduler, warmup service and
auto-pause monitor.

Timestamps are modelled as natural numbers counting minutes since an
arbitrary epoch.  The jobs table is modelled as a list of rows; SQL UPDATE
statements become List.map over the rows, guarded by the WHERE clause.
-/

namespace OutreachIQ

/-- Job status column values, from the job status strings used in
worker.rs and services/job_queue.rs. -/
inductive JobStatus where
  | pending
  | scheduled
  | processing
  | completed
  | failed
deriving DecidableEq, Repr

/-- A row of the jobs table, following struct Job in bin/worker.rs
(id, workspace_id, job_type, payload, status, retry_count, max_retries,
created_at) plus the columns touched by the queue operations
(started_at, completed_at, error, next_retry_at). -/
structure Job where
  id : Nat
  workspaceId : Option Nat
  jobType : String
  payload : String
  status : JobStatus
  retryCount : Nat
  maxRetries : Nat
  createdAt : Nat
  startedAt : Option Nat
  completedAt : Option Nat
  error : Option String
  nextRetryAt : Option Nat
deriving DecidableEq, Repr

/-- The WHERE clause of claim_pending_jobs:
status = 'pending' OR (status = 'scheduled' AND next_retry_at <= NOW()).
A NULL next_retry_at makes the comparison false, as in SQL. -/
def eligible (now : Nat) (j : Job) : Bool :=
  j.status == .pending ||
    (j.status == .scheduled &&
      match j.nextRetryAt with
      | some t => decide (t ≤ now)
      | none => false)

/-- Comparison used by ORDER BY created_at ASC. -/
def createdLE (a b : Job) : Bool :=
  decide (a.createdAt ≤ b.createdAt)

/-- The SELECT of claim_pending_jobs: eligible rows ordered by created_at
ascending, limited to the first `limit` rows. -/
def claimSelected (now limit : Nat) (store : List Job) : List Job :=
  ((store.filter (eligible now)).mergeSort createdLE).take limit

/-- The ids locked by the claiming CTE. -/
def claimedIds (now limit : Nat) (store : List Job) : List Nat :=
  (claimSelected now limit store).map Job.id

/-- The SET clause of the claiming UPDATE:
status = 'processing', started_at = NOW(), retry_count = retry_count + 1. -/
def claimUpdateRow (now : Nat) (j : Job) : Job :=
  { j with status := .processing, startedAt := some now, retryCount := j.retryCount + 1 }

/-- The jobs table after the claiming UPDATE: rows whose id is in the
claimed set are updated, all other rows are untouched. -/
def claimStore (now limit : Nat) (store : List Job) : List Job :=
  store.map (fun j => if j.id ∈ claimedIds now limit store then claimUpdateRow now j else j)

/-- claim_pending_jobs (worker.rs lines 130-156): returns the updated
claimed rows (the RETURNING clause) together with the updated table. -/
def claimPendingJobs (now limit : Nat) (store : List Job) : List Job × List Job :=
  ((claimSelected now limit store).map (claimUpdateRow now), claimStore now limit store)

/-- The SET clause of mark_completed:
status = 'completed', completed_at = NOW(), unconditionally. -/
def markCompletedRow (now : Nat) (j : Job) : Job :=
  { j with status := .completed, completedAt := some now }

/-- mark_completed (worker.rs lines 192-202):
UPDATE jobs SET status = 'completed', completed_at = NOW() WHERE id = jobId. -/
def markCompleted (now jobId : Nat) (store : List Job) : List Job :=
  store.map (fun j => if j.id == jobId then markCompletedRow now j else j)

/-- The SET clause of mark_failed (worker.rs lines 204-229):
status becomes 'failed' when retry_count >= max_retries and 'scheduled'
otherwise; the error is recorded; next_retry_at becomes
NOW() + 5 minutes * 2 ^ retry_count when retry_count < max_retries and
NULL otherwise. -/
def markFailedRow (now : Nat) (err : String) (j : Job) : Job :=
  { j with
    status := if j.retryCount ≥ j.maxRetries then .failed else .scheduled,
    error := some err,
    nextRetryAt := if j.retryCount < j.maxRetries then some (now + 5 * 2 ^ j.retryCount) else none }

/-- mark_failed as a table update: UPDATE ... WHERE id = jobId. -/
def markFailed (now jobId : Nat) (err : String) (store : List Job) : List Job :=
  store.map (fun j => if j.id == jobId then markFailedRow now err j else j)

/-- JobQueue::enqueue (services/job_queue.rs lines 93-133): INSERT of a
fresh pending row with retry_count = 0 and max_retries = 3. -/
def enqueueJob (jobId : Nat) (jobType payload : String) (wsId : Option Nat) (now : Nat)
    (store : List Job) : List Job :=
  store ++ [{ id := jobId
              workspaceId := wsId
              jobType := jobType
              payload := payload
              status := .pending
              retryCount := 0
              maxRetries := 3
              createdAt := now
              startedAt := none
              completedAt := none
              error := none
              nextRetryAt := none }]

/-- A sequence of claim calls sharing one instant, each executed as the
single atomic statement that FOR UPDATE SKIP LOCKED plus the joined UPDATE
makes it; returns each call's claimed ids and the final table. -/
def runClaims (now : Nat) (limits : List Nat) (store : List Job) : List (List Nat) × List Job :=
  match limits with
  | [] => ([], store)
  | l :: ls =>
    let ids := claimedIds now l store
    let rest := runClaims now ls (claimStore now l store)
    (ids :: rest.1, rest.2)

/-! Campaign scheduler (services/campaign_scheduler.rs). -/

/-- Status of a campaign_leads row. -/
inductive LeadStatus where
  | pending
  | scheduled
  | sent
  | unsubscribed
deriving DecidableEq, Repr

/-- A pending campaign lead as fetched by schedule_campaign_sends
(struct PendingLead: id, lead_id, campaign_id, email) together with its
status column. -/
structure CampaignLead where
  id : Nat
  leadId : Nat
  campaignId : Nat
  email : String
  status : LeadStatus
deriving DecidableEq, Repr

/-- An email_accounts row as seen by the scheduler
(struct AvailableInbox: id, email, daily_limit, sent_today, health_score)
plus the warmup_status column used by the eligibility filter. -/
structure SchedInbox where
  id : Nat
  email : String
  dailyLimit : Int
  sentToday : Int
  healthScore : ℚ
  warmupStatus : String
deriving DecidableEq, Repr

/-- The WHERE clause of get_available_inboxes:
warmup_status IN ('active', 'warming') AND sent_today < daily_limit AND
health_score >= 50.0. -/
def inboxSendEligible (i : SchedInbox) : Bool :=
  (i.warmupStatus == "active" || i.warmupStatus == "warming") &&
    decide (i.sentToday < i.dailyLimit) && decide ((50 : ℚ) ≤ i.healthScore)

/-- ORDER BY health_score DESC, sent_today ASC. -/
def availableOrder (a b : SchedInbox) : Bool :=
  decide (b.healthScore < a.healthScore) ||
    (a.healthScore == b.healthScore && decide (a.sentToday ≤ b.sentToday))

/-- get_available_inboxes (campaign_scheduler.rs lines 128-144). -/
def getAvailableInboxes (inboxes : List SchedInbox) : List SchedInbox :=
  (inboxes.filter inboxSendEligible).mergeSort availableOrder

/-- The assignment loop of schedule_campaign_sends (lines 80-123): lead
number idx is paired with inboxes[idx % inboxes.len()]; it is skipped
(assigned none) when daily_limit - sent_today <= 0 for that inbox as
initially fetched, and otherwise a SendEmail job for that inbox is
created.  The inbox list is never modified inside the loop. -/
def assignFor (inboxes : List SchedInbox) (idx : Nat) : Option Nat :=
  match inboxes.get? (idx % inboxes.length) with
  | none => none
  | some inbox => if inbox.dailyLimit - inbox.sentToday ≤ 0 then none else some inbox.id

/-- The loop body applied to each enumerated lead in order. -/
def scheduleAssignAux (inboxes : List SchedInbox) : Nat → List CampaignLead →
    List (CampaignLead × Option Nat)
  | _, [] => []
  | idx, lead :: rest => (lead, assignFor inboxes idx) :: scheduleAssignAux inboxes (idx + 1) rest

/-- One scheduling pass over the fetched pending leads, starting at
index 0. -/
def scheduleAssign (leads : List CampaignLead) (inboxes : List SchedInbox) :
    List (CampaignLead × Option Nat) :=
  scheduleAssignAux inboxes 0 leads

/-- The campaign_leads status after the pass: leads with an assignment
are marked scheduled, skipped leads keep their pending status. -/
def leadAfterPass (p : CampaignLead × Option Nat) : CampaignLead :=
  match p.2 with
  | some _ => { p.1 with status := .scheduled }
  | none => p.1

/-- The counter returned by schedule_campaign_sends. -/
def scheduledCount (leads : List CampaignLead) (inboxes : List SchedInbox) : Nat :=
  (scheduleAssign leads inboxes).countP (fun p => p.2.isSome)

/-! Warmup service (services/warmup_service.rs). -/

/-- An email_accounts row as seen by the warmup service
(struct WarmingInbox). -/
structure Inbox where
  id : Nat
  email : String
  warmupStatus : String
  dailyLimit : Int
  sentToday : Int
  healthScore : ℚ
  createdAt : Nat
deriving DecidableEq, Repr

/-- days_active = (Utc::now() - created_at).num_days(): whole days in the
signed duration, truncated toward zero, with timestamps in minutes. -/
def daysActive (now createdAt : Nat) : Int :=
  ((now : Int) - (createdAt : Int)).tdiv 1440

/-- calculate_target_volume (warmup_service.rs lines 67-79): the warmup
ramp keyed by days since creation.  The final match arm catches every
remaining value, negative days included. -/
def calculateTargetVolume (days : Int) : Int :=
  if 0 ≤ days ∧ days ≤ 2 then 5
  else if 3 ≤ days ∧ days ≤ 5 then 10
  else if 6 ≤ days ∧ days ≤ 9 then 15
  else if 10 ≤ days ∧ days ≤ 14 then 20
  else if 15 ≤ days ∧ days ≤ 21 then 30
  else if 22 ≤ days ∧ days ≤ 28 then 40
  else 50

/-- is_warmup_complete (lines 81-85): days_active >= 30 with
health_score >= 90.0. -/
def isWarmupComplete (days : Int) (healthScore : ℚ) : Bool :=
  decide (30 ≤ days) && decide ((90 : ℚ) ≤ healthScore)

/-- Rust i32 saturating_sub over the embedded integers. -/
def satSubI32 (a b : Int) : Int :=
  max (-(2 ^ 31)) (min (2 ^ 31 - 1) (a - b))

/-- The body of execute_warmup_cycle (lines 42-62) for one warming inbox:
when remaining = target.saturating_sub(sent_today) is positive,
update_warmup_progress sets daily_limit to the ramp target; afterwards,
when is_warmup_complete holds, mark_warmup_complete sets
warmup_status = 'active' and daily_limit = 50. -/
def warmupCycleRow (now : Nat) (inbox : Inbox) : Inbox :=
  let days := daysActive now inbox.createdAt
  let target := calculateTargetVolume days
  let remaining := satSubI32 target inbox.sentToday
  let progressed := if 0 < remaining then { inbox with dailyLimit := target } else inbox
  if isWarmupComplete days inbox.healthScore then
    { progressed with warmupStatus := "active", dailyLimit := 50 }
  else progressed

/-- execute_warmup_cycle over the email_accounts table: only rows with
warmup_status = 'warming' are fetched and processed. -/
def executeWarmupCycle (now : Nat) (store : List Inbox) : List Inbox :=
  store.map (fun i => if i.warmupStatus == "warming" then warmupCycleRow now i else i)

/-- reset_daily_counters (lines 150-159):
UPDATE email_accounts SET sent_today = 0 on every row. -/
def resetDailyCounters (store : List Inbox) : List Inbox :=
  store.map (fun i => { i with sentToday := 0 })

/-! The periodic driver's daily-reset check (bin/worker.rs). -/

/-- should_reset_daily_counters (worker.rs lines 231-235): true when the
wall clock reads hour 0 and minute below 5 (UTC), with the clock value
given in minutes since the epoch. -/
def shouldResetDailyCounters (t : Nat) : Bool :=
  t % 1440 / 60 == 0 && t % 1440 % 60 < 5

/-- The tick times at which the driver loop (worker.rs lines 118-126)
runs reset_daily_counters, given the times of its ticks: the check is
made on every tick and fires exactly when the clock is in the window. -/
def resetTimes (ticks : List Nat) : List Nat :=
  ticks.filter shouldResetDailyCounters

/-- The calendar day of a clock value in minutes. -/
def dayOf (t : Nat) : Nat := t / 1440

/-! Auto-pause monitor (services/auto_pause.rs). -/

/-- struct AutoPauseResult.  The human-readable detail strings are
modelled by fixed markers; their numeric formatting is not embedded. -/
structure AutoPauseResult where
  shouldPause : Bool
  reason : Option String
  detail : Option String
deriving DecidableEq, Repr

/-- struct WorkspaceThresholds. -/
structure WorkspaceThresholds where
  autoPauseEnabled : Bool
  spamRateThreshold : ℚ
  replyDropThreshold : ℚ
  bounceRateThreshold : ℚ
deriving DecidableEq, Repr

/-- struct CampaignMetrics. -/
structure CampaignMetrics where
  campaignId : Nat
  campaignName : String
  currentSpamRate : ℚ
  currentReplyRate : ℚ
  currentBounceRate : ℚ
  previousReplyRate : ℚ
deriving DecidableEq, Repr

/-- The guarded reply-drop test of check_campaign_thresholds
(lines 134-149): only evaluated when previous_reply_rate > 0, with
reply_drop = (previous - current) / previous. -/
def replyDropViolation (m : CampaignMetrics) (s : WorkspaceThresholds) : Bool :=
  decide (0 < m.previousReplyRate) &&
    decide (s.replyDropThreshold <
      (m.previousReplyRate - m.currentReplyRate) / m.previousReplyRate)

/-- check_campaign_thresholds (auto_pause.rs lines 120-169): early return
on the spam-rate test, then the guarded reply-drop test, then the
bounce-rate test, else no pause. -/
def checkCampaignThresholds (m : CampaignMetrics) (s : WorkspaceThresholds) : AutoPauseResult :=
  if decide (s.spamRateThreshold < m.currentSpamRate) then
    { shouldPause := true, reason := some "spam_rate", detail := some "Spam rate spiked" }
  else if replyDropViolation m s then
    { shouldPause := true, reason := some "reply_drop", detail := some "Reply rate dropped" }
  else if decide (s.bounceRateThreshold < m.currentBounceRate) then
    { shouldPause := true, reason := some "bounce_rate", detail := some "Bounce rate reached" }
  else
    { shouldPause := false, reason := none, detail := none }

/-- A campaigns row with the columns the monitor's query reads. -/
structure Campaign where
  id : Nat
  name : String
  status : String
  autoPaused : Bool
  sent : Int
  replied : Int
deriving DecidableEq, Repr

/-- CASE WHEN c.sent > 0 THEN c.replied::FLOAT / c.sent::FLOAT ELSE 0 END,
the expression used for both current_reply_rate and previous_reply_rate. -/
def replyRate (c : Campaign) : ℚ :=
  if 0 < c.sent then (c.replied : ℚ) / (c.sent : ℚ) else 0

/-- The previous_metrics CTE joined back by campaign id
(LEFT JOIN with COALESCE(pm.previous_reply_rate, 0)). -/
def previousFor (campaigns : List Campaign) (cid : Nat) : ℚ :=
  match campaigns.find? (fun c => c.id == cid) with
  | some c => replyRate c
  | none => 0

/-- The default thresholds substituted when a workspace has no
workspace_settings row (auto_pause.rs lines 43-48). -/
def defaultThresholds : WorkspaceThresholds :=
  { autoPauseEnabled := true
    spamRateThreshold := 3 / 100
    replyDropThreshold := 40 / 100
    bounceRateThreshold := 8 / 100 }

/-- The CampaignMetrics row the monitor's query builds for one active,
not-auto-paused campaign: the spam and bounce figures are the
workspace-level 24h averages, and both reply rates come from the same
campaigns row through the replyRate expression. -/
def metricsFor (campaigns : List Campaign) (wsSpamRate wsBounceRate : ℚ) (c : Campaign) :
    CampaignMetrics :=
  { campaignId := c.id
    campaignName := c.name
    currentSpamRate := wsSpamRate
    currentReplyRate := replyRate c
    currentBounceRate := wsBounceRate
    previousReplyRate := previousFor campaigns c.id }

/-- check_and_auto_pause (auto_pause.rs lines 30-118): default settings
when the row is absent, nothing when disabled, otherwise evaluate every
active, not-auto-paused campaign and return the violated results. -/
def checkAndAutoPause (settingsRow : Option WorkspaceThresholds)
    (wsSpamRate wsBounceRate : ℚ) (campaigns : List Campaign) : List AutoPauseResult :=
  let settings := settingsRow.getD defaultThresholds
  if !settings.autoPauseEnabled then []
  else
    let active := campaigns.filter (fun c => c.status == "active" && !c.autoPaused)
    (active.map (fun c =>
      checkCampaignThresholds (metricsFor campaigns wsSpamRate wsBounceRate c) settings)).filter
      (fun r => r.shouldPause)

/-! Theorems. -/

/-- C3: for a job with max_retries = 3, mark_failed with retry_count below
3 schedules a retry with backoff 5 * 2 ^ retry_count minutes (5, 10, 20
minutes at retry_count 0, 1, 2) and records the error; with retry_count
at least 3 it sets the job Failed with no retry time, recording the
error. -/
theorem mark_failed_backoff_schedule (now : Nat) (err : String) (store : List Job) (j : Job)
    (hj : j ∈ store) (hm : j.maxRetries = 3) :
    markFailedRow now err j ∈ markFailed now j.id err store ∧
    (j.retryCount < 3 →
      (markFailedRow now err j).status = .scheduled ∧
      (markFailedRow now err j).error = some err ∧
      (markFailedRow now err j).nextRetryAt = some (now + 5 * 2 ^ j.retryCount)) ∧
    (3 ≤ j.retryCount →
      (markFailedRow now err j).status = .failed ∧
      (markFailedRow now err j).error = some err ∧
      (markFailedRow now err j).nextRetryAt = none) ∧
    (j.retryCount = 0 → (markFailedRow now err j).nextRetryAt = some (now + 5)) ∧
    (j.retryCount = 1 → (markFailedRow now err j).nextRetryAt = some (now + 10)) ∧
    (j.retryCount = 2 → (markFailedRow now err j).nextRetryAt = some (now + 20)) := by
  refine ⟨?_, ?_, ?_, ?_, ?_, ?_⟩
  · have : (fun x => if x.id == j.id then markFailedRow now err x else x) j =
        markFailedRow now err j := by simp
    simpa [markFailed, this] using List.mem_map_of_mem (l := store)
      (f := fun x => if x.id == j.id then markFailedRow now err x else x) hj
  · intro h
    have hlt : j.retryCount < j.maxRetries := by omega
    simp [markFailedRow, hlt, Nat.not_le.mpr hlt]
  · intro h
    have hge : j.maxRetries ≤ j.retryCount := by omega
    simp [markFailedRow, hge, Nat.not_lt.mpr hge]
  · intro h
    simp [markFailedRow, h, hm]
  · intro h
    simp [markFailedRow, h, hm]
  · intro h
    simp [markFailedRow, h, hm]

/-- A concrete processing job used to instantiate the queue theorems. -/
def sampleJob : Job :=
  { id := 0
    workspaceId := none
    jobType := "\"SendEmail\""
    payload := "{}"
    status := .processing
    retryCount := 1
    maxRetries := 3
    createdAt := 0
    startedAt := some 0
    completedAt := none
    error := none
    nextRetryAt := none }

/-- Witness for C3 at a concrete job with retry_count 1. -/
theorem mark_failed_backoff_schedule_witness :
    markFailedRow 100 "smtp error" sampleJob ∈ markFailed 100 0 "smtp error" [sampleJob] ∧
    (sampleJob.retryCount < 3 →
      (markFailedRow 100 "smtp error" sampleJob).status = .scheduled ∧
      (markFailedRow 100 "smtp error" sampleJob).error = some "smtp error" ∧
      (markFailedRow 100 "smtp error" sampleJob).nextRetryAt =
        some (100 + 5 * 2 ^ sampleJob.retryCount)) := by
  have h := mark_failed_backoff_schedule 100 "smtp error" [sampleJob] sampleJob
    (by simp) (by rfl)
  exact ⟨h.1, h.2.1⟩

/-- C5 counterexample: a second mark_completed call five minutes later
does overwrite completed_at, so the second call is not a no-op. -/
theorem mark_completed_counterexample :
    (markCompleted 9 0 (markCompleted 5 0 [sampleJob])).map Job.completedAt ≠
      (markCompleted 5 0 [sampleJob]).map Job.completedAt := by
  decide

/-- C5 amended: the second mark_completed call leaves the status
Completed and never errors, but it overwrites completed_at with its own
clock value; it is a strict no-op only when both calls read the same
clock. -/
theorem mark_completed_second_call (n1 n2 jobId : Nat) (store : List Job) :
    (∀ j ∈ markCompleted n2 jobId (markCompleted n1 jobId store),
      j.id = jobId → j.status = .completed ∧ j.completedAt = some n2) ∧
    markCompleted n1 jobId (markCompleted n1 jobId store) = markCompleted n1 jobId store := by
  constructor
  · intro j hj hid
    simp only [markCompleted, List.map_map, List.mem_map, Function.comp] at hj
    obtain ⟨x, _, hx⟩ := hj
    by_cases h : x.id = jobId
    · simp [h, markCompletedRow] at hx
      simp [← hx, markCompletedRow]
    · simp [h, markCompletedRow] at hx
      simp [← hx] at hid
      exact absurd hid h
  · simp only [markCompleted, List.map_map]
    apply List.map_congr_left
    intro x _
    by_cases h : x.id = jobId <;> simp [h, markCompletedRow]

/-- Witness for C5 amended: after two completions at the same instant the
table is the same as after one. -/
theorem mark_completed_second_call_witness :
    (∀ j ∈ markCompleted 7 0 (markCompleted 5 0 [sampleJob]),
      j.id = 0 → j.status = .completed ∧ j.completedAt = some 7) ∧
    markCompleted 5 0 (markCompleted 5 0 [sampleJob]) = markCompleted 5 0 [sampleJob] :=
  ⟨(mark_completed_second_call 5 7 0 [sampleJob]).1,
   (mark_completed_second_call 5 5 0 [sampleJob]).2⟩

/-- C7: check_campaign_thresholds tests spam rate, then the guarded
reply-drop, then bounce rate, returning at the first violation; in
particular a metrics row violating both the spam and bounce thresholds is
reported as spam_rate, not bounce_rate. -/
theorem check_thresholds_precedence (m : CampaignMetrics) (s : WorkspaceThresholds) :
    (s.spamRateThreshold < m.currentSpamRate →
      (checkCampaignThresholds m s).reason = some "spam_rate") ∧
    (¬ s.spamRateThreshold < m.currentSpamRate → replyDropViolation m s = true →
      (checkCampaignThresholds m s).reason = some "reply_drop") ∧
    (¬ s.spamRateThreshold < m.currentSpamRate → replyDropViolation m s = false →
      s.bounceRateThreshold < m.currentBounceRate →
      (checkCampaignThresholds m s).reason = some "bounce_rate") ∧
    (s.spamRateThreshold < m.currentSpamRate → s.bounceRateThreshold < m.currentBounceRate →
      (checkCampaignThresholds m s).reason = some "spam_rate" ∧
      (checkCampaignThresholds m s).reason ≠ some "bounce_rate") := by
  refine ⟨fun h => by simp [checkCampaignThresholds, h],
          fun h hv => by simp [checkCampaignThresholds, h, hv],
          fun h hv hb => by simp [checkCampaignThresholds, h, hv, hb],
          fun h hb => by simp [checkCampaignThresholds, h]⟩

/-- The metrics row of the spec's threshold-precedence test: spam rate
0.05 and bounce rate 0.10 against the default thresholds. -/
def precedenceMetrics : CampaignMetrics :=
  { campaignId := 1
    campaignName := "c"
    currentSpamRate := 5 / 100
    currentReplyRate := 0
    currentBounceRate := 10 / 100
    previousReplyRate := 0 }

/-- Witness for C7 at spam 0.05 > 0.03 and bounce 0.10 > 0.08. -/
theorem check_thresholds_precedence_witness :
    (checkCampaignThresholds precedenceMetrics defaultThresholds).reason = some "spam_rate" ∧
    (checkCampaignThresholds precedenceMetrics defaultThresholds).reason ≠ some "bounce_rate" :=
  (check_thresholds_precedence precedenceMetrics defaultThresholds).2.2.2
    (by norm_num [precedenceMetrics, defaultThresholds])
    (by norm_num [precedenceMetrics, defaultThresholds])

/-- C8: the warmup ramp maps days 0-2, 3-5, 6-9, 10-14, 15-21, 22-28 and
29 or more to targets 5, 10, 15, 20, 30, 40 and 50, so a 25-day-old inbox
has target 40; and every warming inbox at least 30 days old with health
score at least 90 is promoted by the warmup cycle to status active with
daily_limit 50. -/
theorem warmup_ramp_and_graduation :
    (∀ d : Int, 0 ≤ d → d ≤ 2 → calculateTargetVolume d = 5) ∧
    (∀ d : Int, 3 ≤ d → d ≤ 5 → calculateTargetVolume d = 10) ∧
    (∀ d : Int, 6 ≤ d → d ≤ 9 → calculateTargetVolume d = 15) ∧
    (∀ d : Int, 10 ≤ d → d ≤ 14 → calculateTargetVolume d = 20) ∧
    (∀ d : Int, 15 ≤ d → d ≤ 21 → calculateTargetVolume d = 30) ∧
    (∀ d : Int, 22 ≤ d → d ≤ 28 → calculateTargetVolume d = 40) ∧
    (∀ d : Int, 29 ≤ d → calculateTargetVolume d = 50) ∧
    calculateTargetVolume 25 = 40 ∧
    (∀ (now : Nat) (store : List Inbox) (i : Inbox), i ∈ store →
      i.warmupStatus = "warming" → 30 ≤ daysActive now i.createdAt → (90 : ℚ) ≤ i.healthScore →
      ∃ i' ∈ executeWarmupCycle now store,
        i'.id = i.id ∧ i'.warmupStatus = "active" ∧ i'.dailyLimit = 50) := by
  refine ⟨?_, ?_, ?_, ?_, ?_, ?_, ?_, by decide, ?_⟩
  · intro d h1 h2; simp only [calculateTargetVolume]; split_ifs <;> omega
  · intro d h1 h2; simp only [calculateTargetVolume]; split_ifs <;> omega
  · intro d h1 h2; simp only [calculateTargetVolume]; split_ifs <;> omega
  · intro d h1 h2; simp only [calculateTargetVolume]; split_ifs <;> omega
  · intro d h1 h2; simp only [calculateTargetVolume]; split_ifs <;> omega
  · intro d h1 h2; simp only [calculateTargetVolume]; split_ifs <;> omega
  · intro d h1; simp only [calculateTargetVolume]; split_ifs <;> omega
  · intro now store i hi hw hd hh
    refine ⟨warmupCycleRow now i, ?_, ?_⟩
    · simp only [executeWarmupCycle, List.mem_map]
      exact ⟨i, hi, by simp [hw]⟩
    · have hc : isWarmupComplete (daysActive now i.createdAt) i.healthScore = true := by
        simp [isWarmupComplete, hd, hh]
      unfold warmupCycleRow
      simp only [hc, if_true]
      split_ifs <;> simp

/-- A warming inbox created at the epoch, seen 31 days later. -/
def warmInbox : Inbox :=
  { id := 4
    email := "warm@example.com"
    warmupStatus := "warming"
    dailyLimit := 40
    sentToday := 0
    healthScore := 95
    createdAt := 0 }

/-- Witness for C8: target 40 at 25 days, and the 31-day-old healthy
warming inbox is promoted to active with limit 50. -/
theorem warmup_ramp_and_graduation_witness :
    calculateTargetVolume 25 = 40 ∧
    ∃ i' ∈ executeWarmupCycle (31 * 1440) [warmInbox],
      i'.id = warmInbox.id ∧ i'.warmupStatus = "active" ∧ i'.dailyLimit = 50 :=
  ⟨warmup_ramp_and_graduation.2.2.2.2.2.2.2.1,
   warmup_ramp_and_graduation.2.2.2.2.2.2.2.2 (31 * 1440) [warmInbox] warmInbox
     (by simp) (by rfl) (by decide) (by norm_num [warmInbox])⟩

/-- C9 counterexample: two driver ticks one minute apart inside the
00:00-00:05 window both run the daily reset, so the reset is performed
twice within one calendar day. -/
theorem daily_reset_counterexample :
    ((resetTimes [0, 1]).filter (fun t => dayOf t == 0)).length = 2 := by
  decide

/-- C9 amended: the driver runs the daily reset at exactly those ticks
whose wall clock lies in the 00:00-00:05 UTC window (hence possibly many
times within one day), and if no tick of a given day lies in that window
then no reset happens on that day. -/
theorem daily_reset_window (ticks : List Nat) :
    (∀ t, t ∈ resetTimes ticks ↔ t ∈ ticks ∧ t % 1440 < 5) ∧
    (∀ d, (∀ t ∈ ticks, ¬(dayOf t = d ∧ t % 1440 < 5)) →
      ∀ t ∈ resetTimes ticks, dayOf t ≠ d) := by
  have hmem : ∀ t, t ∈ resetTimes ticks ↔ t ∈ ticks ∧ t % 1440 < 5 := by
    intro t
    simp only [resetTimes, List.mem_filter, shouldResetDailyCounters, Bool.and_eq_true,
      beq_iff_eq, decide_eq_true_eq]
    constructor
    · rintro ⟨h1, h2, h3⟩; exact ⟨h1, by omega⟩
    · rintro ⟨h1, h2⟩; exact ⟨h1, by omega, by omega⟩
  refine ⟨hmem, fun d hd t ht hday => ?_⟩
  have := (hmem t).mp ht
  exact hd t this.1 ⟨hday, this.2⟩

/-- Witness for C9 amended: at ticks 0, 1, 300 and 1440 the resets are
exactly 0, 1 and 1440, and day 2 with no in-window tick gets none. -/
theorem daily_reset_window_witness :
    (1 ∈ resetTimes [0, 1, 300, 1440] ↔ 1 ∈ [0, 1, 300, 1440] ∧ 1 % 1440 < 5) ∧
    ∀ t ∈ resetTimes [0, 1, 300, 1440], dayOf t ≠ 2 :=
  ⟨(daily_reset_window [0, 1, 300, 1440]).1 1,
   (daily_reset_window [0, 1, 300, 1440]).2 2 (by decide)⟩

/-- Inbox A of the spec's round-robin test: limit 10, sent 9. -/
def inboxA : SchedInbox :=
  { id := 1, email := "a@x.com", dailyLimit := 10, sentToday := 9,
    healthScore := 90, warmupStatus := "active" }

/-- Inbox B of the spec's round-robin test: limit 10, sent 0. -/
def inboxB : SchedInbox :=
  { id := 2, email := "b@x.com", dailyLimit := 10, sentToday := 0,
    healthScore := 80, warmupStatus := "active" }

/-- The three pending leads of the round-robin test. -/
def rrLeads : List CampaignLead :=
  [{ id := 0, leadId := 0, campaignId := 7, email := "l0@x.com", status := .pending },
   { id := 1, leadId := 1, campaignId := 7, email := "l1@x.com", status := .pending },
   { id := 2, leadId := 2, campaignId := 7, email := "l2@x.com", status := .pending }]

theorem avail_pair_eval : getAvailableInboxes [inboxA, inboxB] = [inboxA, inboxB] := by
  unfold getAvailableInboxes
  rw [show [inboxA, inboxB].filter inboxSendEligible = [inboxA, inboxB] from by decide]
  exact List.mergeSort_of_sorted (by decide)

/-- C6 counterexample: on the spec's own test input (3 pending leads,
inboxes A limit 10 sent 9 and B limit 10 sent 0) the pass assigns
lead0 to A, lead1 to B and also schedules lead2 on A: the initially
fetched remaining capacity of A is 1, the loop never decrements it, so
lead2 is not left pending. -/
theorem round_robin_counterexample :
    (scheduleAssign rrLeads (getAvailableInboxes [inboxA, inboxB])).map
        (fun p => (p.1.id, p.2)) = [(0, some 1), (1, some 2), (2, some 1)] ∧
    (scheduleAssign rrLeads (getAvailableInboxes [inboxA, inboxB])).map
        (fun p => (leadAfterPass p).status) = [.scheduled, .scheduled, .scheduled] := by
  rw [avail_pair_eval]
  decide

theorem scheduleAssignAux_length (inboxes : List SchedInbox) (k : Nat)
    (leads : List CampaignLead) :
    (scheduleAssignAux inboxes k leads).length = leads.length := by
  induction leads generalizing k with
  | nil => rfl
  | cons a t ih => simp [scheduleAssignAux, ih]

theorem scheduleAssignAux_getElem (inboxes : List SchedInbox) (leads : List CampaignLead)
    (k i : Nat) (h : i < leads.length) :
    (scheduleAssignAux inboxes k leads)[i]? =
      some (leads[i], assignFor inboxes (k + i)) := by
  induction leads generalizing k i with
  | nil => simp at h
  | cons a t ih =>
    cases i with
    | zero => simp [scheduleAssignAux]
    | succ n =>
      have hn : n < t.length := by simpa using h
      have := ih (k + 1) n hn
      simpa [scheduleAssignAux, Nat.add_assoc, Nat.add_comm 1 n] using this

/-- C6 amended: in one pass, lead number i is assigned to eligible inbox
i mod k; the skip fires only when the assigned inbox's initially fetched
remaining capacity is non-positive, which never happens for an inbox
returned by get_available_inboxes (its filter requires
sent_today < daily_limit), so every fetched lead is scheduled on its
round-robin inbox, even past that inbox's remaining capacity. -/
theorem round_robin_assignment (leads : List CampaignLead) (raw : List SchedInbox)
    (hne : getAvailableInboxes raw ≠ []) :
    (∀ inbox ∈ getAvailableInboxes raw, inbox.sentToday < inbox.dailyLimit) ∧
    (∀ i, i < leads.length →
      ∃ lead inbox,
        leads[i]? = some lead ∧
        (getAvailableInboxes raw)[i % (getAvailableInboxes raw).length]? = some inbox ∧
        (scheduleAssign leads (getAvailableInboxes raw))[i]? = some (lead, some inbox.id)) ∧
    (∀ p ∈ scheduleAssign leads (getAvailableInboxes raw),
      (leadAfterPass p).status = .scheduled) := by
  have hcap : ∀ inbox ∈ getAvailableInboxes raw, inbox.sentToday < inbox.dailyLimit := by
    intro inbox hin
    have : inboxSendEligible inbox = true := by
      have : inbox ∈ raw.filter inboxSendEligible := by
        simpa [getAvailableInboxes] using hin
      exact (List.mem_filter.mp this).2
    simp only [inboxSendEligible, Bool.and_eq_true, decide_eq_true_eq] at this
    exact this.1.2
  have hlen : 0 < (getAvailableInboxes raw).length := List.length_pos.mpr hne
  have hassign : ∀ i, assignFor (getAvailableInboxes raw) i =
      some (((getAvailableInboxes raw).get
        ⟨i % (getAvailableInboxes raw).length, Nat.mod_lt _ hlen⟩).id) := by
    intro i
    have hmod : i % (getAvailableInboxes raw).length < (getAvailableInboxes raw).length :=
      Nat.mod_lt _ hlen
    have hget : (getAvailableInboxes raw).get? (i % (getAvailableInboxes raw).length) =
        some ((getAvailableInboxes raw).get ⟨_, hmod⟩) := List.get?_eq_get hmod
    have hmem : (getAvailableInboxes raw).get ⟨_, hmod⟩ ∈ getAvailableInboxes raw :=
      List.get_mem _ _ hmod
    have hlt := hcap _ hmem
    simp only [assignFor, hget]
    rw [if_neg (by omega)]
  refine ⟨hcap, ?_, ?_⟩
  · intro i hi
    have hmod : i % (getAvailableInboxes raw).length < (getAvailableInboxes raw).length :=
      Nat.mod_lt _ hlen
    refine ⟨leads[i], (getAvailableInboxes raw).get ⟨_, hmod⟩,
      List.getElem?_eq_getElem hi, ?_, ?_⟩
    · simp [List.get?_eq_get hmod]
    · have := scheduleAssignAux_getElem (getAvailableInboxes raw) leads 0 i hi
      simpa [scheduleAssign, hassign i] using this
  · intro p hp
    rw [scheduleAssign] at hp
    obtain ⟨i, hip⟩ := List.mem_iff_getElem?.mp hp
    have hilt : i < leads.length := by
      by_contra hge
      rw [List.getElem?_eq_none
        (by rw [scheduleAssignAux_length]; omega)] at hip
      exact Option.noConfusion hip
    rw [scheduleAssignAux_getElem (getAvailableInboxes raw) leads 0 i hilt] at hip
    have hp2 : p = (leads[i], assignFor (getAvailableInboxes raw) (0 + i)) :=
      (Option.some.injEq _ _ ▸ hip).symm
    rw [hp2]
    simp [leadAfterPass, hassign]

/-- Witness for C6 amended at the spec's test input: lead 2 is assigned
inbox A (id 1) and every lead of the pass ends the pass scheduled. -/
theorem round_robin_assignment_witness :
    (∃ lead inbox,
      rrLeads[2]? = some lead ∧
      (getAvailableInboxes [inboxA, inboxB])[2 % (getAvailableInboxes [inboxA, inboxB]).length]? =
        some inbox ∧
      (scheduleAssign rrLeads (getAvailableInboxes [inboxA, inboxB]))[2]? =
        some (lead, some inbox.id)) ∧
    (∀ p ∈ scheduleAssign rrLeads (getAvailableInboxes [inboxA, inboxB]),
      (leadAfterPass p).status = .scheduled) :=
  ⟨(round_robin_assignment rrLeads [inboxA, inboxB]
      (by rw [avail_pair_eval]; decide)).2.1 2 (by decide),
   (round_robin_assignment rrLeads [inboxA, inboxB]
      (by rw [avail_pair_eval]; decide)).2.2⟩

theorem find_id_self (l : List Campaign) (hn : (l.map Campaign.id).Nodup)
    (c : Campaign) (hc : c ∈ l) :
    l.find? (fun x => x.id == c.id) = some c := by
  induction l with
  | nil => simp at hc
  | cons a t ih =>
    rw [List.map_cons, List.nodup_cons] at hn
    rcases List.mem_cons.mp hc with h | h
    · subst h
      simp [List.find?]
    · have hne : (a.id == c.id) = false := by
        simp only [beq_eq_false_iff_ne, ne_eq]
        intro heq
        exact hn.1 (heq ▸ List.mem_map_of_mem Campaign.id h)
      simp only [List.find?, hne]
      exact ih hn.2 h

/-- C10: the monitor computes previous_reply_rate and current_reply_rate
from the same campaigns row with the same expression, so they are equal
for every evaluated campaign, and with a non-negative reply_drop_threshold
check_and_auto_pause never reports reason reply_drop. -/
theorem reply_drop_never_fires (settingsRow : Option WorkspaceThresholds)
    (wsSpamRate wsBounceRate : ℚ) (campaigns : List Campaign)
    (hn : (campaigns.map Campaign.id).Nodup)
    (ht : 0 ≤ (settingsRow.getD defaultThresholds).replyDropThreshold) :
    (∀ c ∈ campaigns,
      (metricsFor campaigns wsSpamRate wsBounceRate c).previousReplyRate =
        (metricsFor campaigns wsSpamRate wsBounceRate c).currentReplyRate) ∧
    (∀ r ∈ checkAndAutoPause settingsRow wsSpamRate wsBounceRate campaigns,
      r.reason ≠ some "reply_drop") := by
  have hprev : ∀ c ∈ campaigns,
      (metricsFor campaigns wsSpamRate wsBounceRate c).previousReplyRate =
        (metricsFor campaigns wsSpamRate wsBounceRate c).currentReplyRate := by
    intro c hc
    simp [metricsFor, previousFor, find_id_self campaigns hn c hc]
  refine ⟨hprev, ?_⟩
  intro r hr
  simp only [checkAndAutoPause] at hr
  by_cases he : (settingsRow.getD defaultThresholds).autoPauseEnabled
  · rw [if_neg (by simp [he])] at hr
    obtain ⟨hr', hps⟩ := List.mem_filter.mp hr
    obtain ⟨c, hc, hcr⟩ := List.mem_map.mp hr'
    have hcc : c ∈ campaigns := (List.mem_filter.mp hc).1
    have hmetr := hprev c hcc
    have hviol : replyDropViolation (metricsFor campaigns wsSpamRate wsBounceRate c)
        (settingsRow.getD defaultThresholds) = false := by
      simp only [replyDropViolation, hmetr, Bool.and_eq_false_iff, decide_eq_false_iff_not,
        not_lt]
      right
      rw [sub_self, zero_div]
      exact ht
    rw [← hcr]
    unfold checkCampaignThresholds
    rw [hviol]
    split_ifs <;> simp_all
  · rw [if_pos (by simp [he])] at hr
    simp at hr

/-- An active campaign with 100 sends and 10 replies. -/
def sampleCampaign : Campaign :=
  { id := 3, name := "launch", status := "active", autoPaused := false,
    sent := 100, replied := 10 }

/-- Witness for C10 with the default settings and one active campaign. -/
theorem reply_drop_never_fires_witness :
    (metricsFor [sampleCampaign] (5 / 100) (10 / 100) sampleCampaign).previousReplyRate =
      (metricsFor [sampleCampaign] (5 / 100) (10 / 100) sampleCampaign).currentReplyRate ∧
    ∀ r ∈ checkAndAutoPause none (5 / 100) (10 / 100) [sampleCampaign],
      r.reason ≠ some "reply_drop" :=
  ⟨(reply_drop_never_fires none (5 / 100) (10 / 100) [sampleCampaign] (by decide)
      (by norm_num [defaultThresholds])).1 sampleCampaign (by simp),
   (reply_drop_never_fires none (5 / 100) (10 / 100) [sampleCampaign] (by decide)
      (by norm_num [defaultThresholds])).2⟩

/-! Properties of the claim operation. -/

theorem claimSelected_mem (now limit : Nat) (store : List Job) :
    ∀ j ∈ claimSelected now limit store, j ∈ store ∧ eligible now j = true := by
  intro j hj
  have h1 : j ∈ (store.filter (eligible now)).mergeSort createdLE :=
    List.mem_of_mem_take hj
  have h2 : j ∈ store.filter (eligible now) := List.mem_mergeSort.mp h1
  exact ⟨(List.mem_filter.mp h2).1, (List.mem_filter.mp h2).2⟩

theorem mem_claimedIds (now limit : Nat) (store : List Job) (x : Nat)
    (hx : x ∈ claimedIds now limit store) :
    ∃ j ∈ store, eligible now j = true ∧ j.id = x := by
  obtain ⟨j, hj, hje⟩ := List.mem_map.mp hx
  obtain ⟨hjs, hjel⟩ := claimSelected_mem now limit store j hj
  exact ⟨j, hjs, hjel, hje⟩

theorem claimedIds_nodup (now limit : Nat) (store : List Job)
    (hn : (store.map Job.id).Nodup) : (claimedIds now limit store).Nodup := by
  have h1 : ((store.filter (eligible now)).map Job.id).Nodup :=
    List.Nodup.sublist ((List.filter_sublist store).map Job.id) hn
  have h2 : (((store.filter (eligible now)).mergeSort createdLE).map Job.id).Nodup :=
    ((List.mergeSort_perm (store.filter (eligible now)) createdLE).map Job.id).nodup_iff.mpr h1
  exact List.Nodup.sublist
    ((List.take_sublist limit ((store.filter (eligible now)).mergeSort createdLE)).map Job.id) h2

theorem not_claimed_of_not_eligible (now limit : Nat) (store : List Job)
    (hn : (store.map Job.id).Nodup) (a : Job) (ha : a ∈ store)
    (he : eligible now a = false) : a.id ∉ claimedIds now limit store := by
  intro hmem
  obtain ⟨j, hjs, hjel, hje⟩ := mem_claimedIds now limit store a.id hmem
  have : j = a := List.inj_on_of_nodup_map hn hjs ha hje
  rw [this] at hjel
  rw [hjel] at he
  exact Bool.noConfusion he

theorem eligible_claimUpdateRow (now : Nat) (j : Job) :
    eligible now (claimUpdateRow now j) = false := by
  simp [eligible, claimUpdateRow]

theorem claimStore_map_id (now limit : Nat) (store : List Job) :
    (claimStore now limit store).map Job.id = store.map Job.id := by
  simp only [claimStore, List.map_map]
  apply List.map_congr_left
  intro j _
  by_cases h : j.id ∈ claimedIds now limit store <;> simp [h, claimUpdateRow]

/-- C2: a claim call returns exactly min(limit, number of eligible jobs)
rows, each an eligible row updated to Processing with started_at set and
retry_count incremented by one, never younger than any passed-over
eligible row; in the table, rows that are ineligible or unclaimed are
untouched and claimed rows receive exactly that update. -/
theorem claim_pending_jobs_semantics (now limit : Nat) (store : List Job)
    (hn : (store.map Job.id).Nodup) :
    ((claimPendingJobs now limit store).1).length =
      min limit (store.filter (eligible now)).length ∧
    (∀ r ∈ (claimPendingJobs now limit store).1, ∃ j ∈ store,
      eligible now j = true ∧ r = claimUpdateRow now j ∧
      r.status = .processing ∧ r.startedAt = some now ∧
      r.retryCount = j.retryCount + 1 ∧ r.createdAt = j.createdAt ∧ r.id = j.id) ∧
    (∀ r ∈ (claimPendingJobs now limit store).1, ∀ j ∈ store,
      eligible now j = true → j.id ∉ claimedIds now limit store →
      r.createdAt ≤ j.createdAt) ∧
    ((claimPendingJobs now limit store).2).length = store.length ∧
    (∀ i (h : i < store.length),
      ∃ hp : i < ((claimPendingJobs now limit store).2).length,
      (eligible now (store.get ⟨i, h⟩) = false →
        ((claimPendingJobs now limit store).2).get ⟨i, hp⟩ = store.get ⟨i, h⟩) ∧
      ((store.get ⟨i, h⟩).id ∉ claimedIds now limit store →
        ((claimPendingJobs now limit store).2).get ⟨i, hp⟩ = store.get ⟨i, h⟩) ∧
      ((store.get ⟨i, h⟩).id ∈ claimedIds now limit store →
        ((claimPendingJobs now limit store).2).get ⟨i, hp⟩ =
          claimUpdateRow now (store.get ⟨i, h⟩))) := by
  refine ⟨?_, ?_, ?_, ?_, ?_⟩
  · simp [claimPendingJobs, claimSelected]
  · intro r hr
    obtain ⟨j, hj, hje⟩ := List.mem_map.mp hr
    obtain ⟨hjs, hjel⟩ := claimSelected_mem now limit store j hj
    exact ⟨j, hjs, hjel, hje.symm, by rw [← hje]; rfl, by rw [← hje]; rfl,
      by rw [← hje]; rfl, by rw [← hje]; rfl, by rw [← hje]; rfl⟩
  · intro r hr j hj hjel hjnc
    obtain ⟨jr, hjr, hjre⟩ := List.mem_map.mp hr
    have htrans : ∀ (a b c : Job), createdLE a b → createdLE b c → createdLE a c := by
      intro a b c hab hbc
      simp only [createdLE, decide_eq_true_eq] at hab hbc ⊢
      omega
    have htotal : ∀ (a b : Job), createdLE a b || createdLE b a := by
      intro a b
      rcases Nat.le_total a.createdAt b.createdAt with h | h <;> simp [createdLE, h]
    have hsorted : List.Pairwise (fun a b => createdLE a b = true)
        ((store.filter (eligible now)).mergeSort createdLE) :=
      List.sorted_mergeSort htrans htotal (store.filter (eligible now))
    have hsplit := List.take_append_drop limit ((store.filter (eligible now)).mergeSort createdLE)
    rw [← hsplit] at hsorted
    have hpw := (List.pairwise_append.mp hsorted).2.2
    have hjm : j ∈ (store.filter (eligible now)).mergeSort createdLE :=
      List.mem_mergeSort.mpr (List.mem_filter.mpr ⟨hj, hjel⟩)
    rw [← hsplit] at hjm
    rcases List.mem_append.mp hjm with hjt | hjd
    · exact absurd (List.mem_map_of_mem Job.id hjt) hjnc
    · have hle := hpw jr hjr j hjd
      simp only [createdLE, decide_eq_true_eq] at hle
      rw [← hjre]
      exact hle
  · simp [claimPendingJobs, claimStore]
  · intro i h
    have hlen : ((claimPendingJobs now limit store).2).length = store.length := by
      simp [claimPendingJobs, claimStore]
    have hp : i < ((claimPendingJobs now limit store).2).length := by omega
    have hget : ((claimPendingJobs now limit store).2).get ⟨i, hp⟩ =
        (if (store.get ⟨i, h⟩).id ∈ claimedIds now limit store
          then claimUpdateRow now (store.get ⟨i, h⟩) else store.get ⟨i, h⟩) := by
      show (claimStore now limit store).get ⟨i, _⟩ = _
      simp [claimStore]
    refine ⟨hp, ?_, ?_, ?_⟩
    · intro he
      have hnc : (store.get ⟨i, h⟩).id ∉ claimedIds now limit store :=
        not_claimed_of_not_eligible now limit store hn _ (List.get_mem store i h) he
      rw [hget, if_neg hnc]
    · intro hnc
      rw [hget, if_neg hnc]
    · intro hc
      rw [hget, if_pos hc]

/-- A pending job created at minute 5. -/
def pendingJob : Job :=
  { sampleJob with id := 1, status := .pending, createdAt := 5 }

/-- An older pending job created at minute 3. -/
def olderPendingJob : Job :=
  { sampleJob with id := 2, status := .pending, createdAt := 3 }

/-- A scheduled job created at minute 1 whose retry time has arrived. -/
def dueScheduledJob : Job :=
  { sampleJob with id := 3, status := .scheduled, createdAt := 1, nextRetryAt := some 50 }

/-- Witness for C2 on a three-job store claimed with limit 2. -/
theorem claim_pending_jobs_semantics_witness :
    ((claimPendingJobs 100 2 [pendingJob, olderPendingJob, dueScheduledJob]).1).length =
      min 2 (([pendingJob, olderPendingJob, dueScheduledJob].filter (eligible 100)).length) ∧
    ∀ r ∈ (claimPendingJobs 100 2 [pendingJob, olderPendingJob, dueScheduledJob]).1,
      ∃ j ∈ [pendingJob, olderPendingJob, dueScheduledJob],
        eligible 100 j = true ∧ r = claimUpdateRow 100 j ∧
        r.status = .processing ∧ r.startedAt = some 100 ∧
        r.retryCount = j.retryCount + 1 ∧ r.createdAt = j.createdAt ∧ r.id = j.id :=
  ⟨(claim_pending_jobs_semantics 100 2 [pendingJob, olderPendingJob, dueScheduledJob]
      (by decide)).1,
   (claim_pending_jobs_semantics 100 2 [pendingJob, olderPendingJob, dueScheduledJob]
      (by decide)).2.1⟩

/-- Ids of the rows passing the claim eligibility filter. -/
def eligibleIds (now : Nat) (s : List Job) : List Nat :=
  (s.filter (eligible now)).map Job.id

theorem claimedIds_subset_eligibleIds (now limit : Nat) (store : List Job) :
    ∀ x ∈ claimedIds now limit store, x ∈ eligibleIds now store := by
  intro x hx
  obtain ⟨j, hjs, hjel, hje⟩ := mem_claimedIds now limit store x hx
  exact hje ▸ List.mem_map_of_mem Job.id (List.mem_filter.mpr ⟨hjs, hjel⟩)

theorem eligibleIds_claimStore_subset (now limit : Nat) (store : List Job) :
    ∀ x ∈ eligibleIds now (claimStore now limit store), x ∈ eligibleIds now store := by
  intro x hx
  obtain ⟨j', hj', hj'e⟩ := List.mem_map.mp hx
  obtain ⟨hj's, hj'el⟩ := List.mem_filter.mp hj'
  obtain ⟨j, hjs, hje⟩ := List.mem_map.mp hj's
  by_cases hc : j.id ∈ claimedIds now limit store
  · rw [if_pos hc] at hje
    rw [← hje] at hj'el
    rw [eligible_claimUpdateRow] at hj'el
    exact Bool.noConfusion hj'el
  · rw [if_neg hc] at hje
    subst hje
    exact hj'e ▸ List.mem_map_of_mem Job.id (List.mem_filter.mpr ⟨hjs, hj'el⟩)

theorem claimed_not_eligible_after (now limit : Nat) (store : List Job) :
    ∀ x ∈ claimedIds now limit store, x ∉ eligibleIds now (claimStore now limit store) := by
  intro x hx hpost
  obtain ⟨j', hj', hj'e⟩ := List.mem_map.mp hpost
  obtain ⟨hj's, hj'el⟩ := List.mem_filter.mp hj'
  obtain ⟨j, hjs, hje⟩ := List.mem_map.mp hj's
  by_cases hc : j.id ∈ claimedIds now limit store
  · rw [if_pos hc] at hje
    rw [← hje] at hj'el
    rw [eligible_claimUpdateRow] at hj'el
    exact Bool.noConfusion hj'el
  · rw [if_neg hc] at hje
    subst hje
    subst hj'e
    exact hc hx

theorem runClaims_ids (now : Nat) (limits : List Nat) :
    ∀ store : List Job, (store.map Job.id).Nodup →
      List.Pairwise (fun a b => ∀ x ∈ a, x ∉ b) (runClaims now limits store).1 ∧
      (runClaims now limits store).1.flatten.Nodup ∧
      ∀ x ∈ (runClaims now limits store).1.flatten, x ∈ eligibleIds now store := by
  induction limits with
  | nil => intro store hn; simp [runClaims]
  | cons l ls ih =>
    intro store hn
    have hn' : ((claimStore now l store).map Job.id).Nodup := by
      rw [claimStore_map_id]; exact hn
    obtain ⟨ihpw, ihnd, ihsub⟩ := ih (claimStore now l store) hn'
    have hids : (runClaims now (l :: ls) store).1 =
        claimedIds now l store :: (runClaims now ls (claimStore now l store)).1 := rfl
    rw [hids]
    have hdisj : ∀ x ∈ claimedIds now l store,
        x ∉ (runClaims now ls (claimStore now l store)).1.flatten := by
      intro x hx hmem
      exact claimed_not_eligible_after now l store x hx (ihsub x hmem)
    refine ⟨?_, ?_, ?_⟩
    · refine List.Pairwise.cons ?_ ihpw
      intro b hb x hx hxb
      exact hdisj x hx (List.mem_flatten_of_mem hb hxb)
    · rw [List.flatten_cons]
      exact (claimedIds_nodup now l store hn).append ihnd (fun x hx => hdisj x hx)
    · intro x hx
      rw [List.flatten_cons] at hx
      rcases List.mem_append.mp hx with h | h
      · exact claimedIds_subset_eligibleIds now l store x h
      · exact eligibleIds_claimStore_subset now l store x (ihsub x h)

/-- C1: any number of claim calls issued against one instant of the
store return pairwise disjoint id lists whose concatenation is
duplicate-free and no longer than the number of initially eligible
jobs. -/
theorem claim_exclusivity (now : Nat) (limits : List Nat) (store : List Job)
    (hn : (store.map Job.id).Nodup) :
    List.Pairwise (fun a b => ∀ x ∈ a, x ∉ b) (runClaims now limits store).1 ∧
    (runClaims now limits store).1.flatten.Nodup ∧
    (runClaims now limits store).1.flatten.length ≤
      (store.filter (eligible now)).length := by
  obtain ⟨hpw, hnd, hsub⟩ := runClaims_ids now limits store hn
  refine ⟨hpw, hnd, ?_⟩
  have hsp : List.Subperm (runClaims now limits store).1.flatten (eligibleIds now store) :=
    hnd.subperm hsub
  have hle := hsp.length_le
  simpa [eligibleIds] using hle

/-- Witness for C1: two claim calls with limits 2 and 5 over a three-job
store with two pending jobs and one due scheduled job. -/
theorem claim_exclusivity_witness :
    List.Pairwise (fun a b => ∀ x ∈ a, x ∉ b)
      (runClaims 100 [2, 5] [pendingJob, olderPendingJob, dueScheduledJob]).1 ∧
    (runClaims 100 [2, 5] [pendingJob, olderPendingJob, dueScheduledJob]).1.flatten.Nodup ∧
    (runClaims 100 [2, 5] [pendingJob, olderPendingJob, dueScheduledJob]).1.flatten.length ≤
      ([pendingJob, olderPendingJob, dueScheduledJob].filter (eligible 100)).length :=
  claim_exclusivity 100 [2, 5] [pendingJob, olderPendingJob, dueScheduledJob] (by decide)

/-! The queue state machine over claim, complete and fail sequences. -/

/-- One invocation of a queue mutation. -/
inductive QueueOp where
  | claim (now limit : Nat)
  | complete (now jobId : Nat)
  | fail (now jobId : Nat) (err : String)

/-- The row function each operation maps over the jobs table. -/
def opFun (op : QueueOp) (s : List Job) : Job → Job :=
  match op with
  | .claim now limit => fun j => if j.id ∈ claimedIds now limit s then claimUpdateRow now j else j
  | .complete now jobId => fun j => if j.id == jobId then markCompletedRow now j else j
  | .fail now jobId err => fun j => if j.id == jobId then markFailedRow now err j else j

/-- Effect of one operation on the jobs table. -/
def applyOp (op : QueueOp) (s : List Job) : List Job :=
  match op with
  | .claim now limit => claimStore now limit s
  | .complete now jobId => markCompleted now jobId s
  | .fail now jobId err => markFailed now jobId err s

theorem applyOp_eq_map (op : QueueOp) (s : List Job) :
    applyOp op s = s.map (opFun op s) := by
  cases op <;> rfl

/-- Effect of a sequence of operations, applied left to right. -/
def applyOps (ops : List QueueOp) (s : List Job) : List Job :=
  match ops with
  | [] => s
  | op :: rest => applyOps rest (applyOp op s)

/-- The worker's discipline: complete and fail target only a job that is
currently Processing, as the loop in bin/worker.rs lines 68-84 marks
exactly the jobs it claimed in the same iteration. -/
def opSafe (s : List Job) : QueueOp → Prop
  | .claim _ _ => True
  | .complete _ jobId => ∀ j ∈ s, j.id = jobId → j.status = .processing
  | .fail _ jobId _ => ∀ j ∈ s, j.id = jobId → j.status = .processing

/-- A sequence of operations, each safe in the state it runs in. -/
inductive SafeTrace : List Job → List QueueOp → Prop
  | nil (s : List Job) : SafeTrace s []
  | cons (s : List Job) (op : QueueOp) (ops : List QueueOp) :
      opSafe s op → SafeTrace (applyOp op s) ops → SafeTrace s (op :: ops)

theorem opFun_id (op : QueueOp) (s : List Job) (j : Job) : (opFun op s j).id = j.id := by
  cases op <;> simp only [opFun] <;> split <;>
    simp [claimUpdateRow, markCompletedRow, markFailedRow]

theorem opFun_retry (op : QueueOp) (s : List Job) (j : Job) :
    j.retryCount ≤ (opFun op s j).retryCount := by
  cases op <;> simp only [opFun] <;> split <;>
    simp [claimUpdateRow, markCompletedRow, markFailedRow]

theorem eligible_of_terminal (now : Nat) (j : Job)
    (ht : j.status = .completed ∨ j.status = .failed) : eligible now j = false := by
  rcases ht with h | h <;> simp [eligible, h]

theorem opFun_terminal (op : QueueOp) (s : List Job)
    (hn : (s.map Job.id).Nodup) (hsafe : opSafe s op) (j : Job) (hj : j ∈ s)
    (ht : j.status = .completed ∨ j.status = .failed) : opFun op s j = j := by
  cases op with
  | claim now limit =>
    have hne : j.id ∉ claimedIds now limit s := by
      intro hc
      obtain ⟨j', hj's, hj'el, hj'e⟩ := mem_claimedIds now limit s j.id hc
      have heq : j' = j := List.inj_on_of_nodup_map hn hj's hj hj'e
      rw [heq, eligible_of_terminal now j ht] at hj'el
      exact Bool.noConfusion hj'el
    simp only [opFun]
    rw [if_neg hne]
  | complete now jobId =>
    have hne : ¬ (j.id == jobId) = true := by
      intro hc
      have hst := hsafe j hj (by simpa using hc)
      rcases ht with h | h <;> rw [h] at hst <;> exact JobStatus.noConfusion hst
    simp only [opFun]
    rw [if_neg hne]
  | fail now jobId err =>
    have hne : ¬ (j.id == jobId) = true := by
      intro hc
      have hst := hsafe j hj (by simpa using hc)
      rcases ht with h | h <;> rw [h] at hst <;> exact JobStatus.noConfusion hst
    simp only [opFun]
    rw [if_neg hne]

/-- A job that has already reached the terminal Completed status. -/
def completedJob : Job :=
  { sampleJob with status := .completed, retryCount := 1 }

/-- C4 counterexample: mark_failed applied to a job whose status is
already Completed moves it to Scheduled, so a terminal state can be
left by a later queue operation. -/
theorem terminal_left_counterexample :
    completedJob.status = .completed ∧
    (markFailed 0 0 "boom" [completedJob]).map Job.status = [.scheduled] := by
  decide

/-- C4 amended: over any sequence of claim, complete and fail calls a
job's retry_count never decreases and its id is stable; and whenever
complete and fail are invoked only on currently-Processing jobs, as the
worker loop does, a job that is Completed or Failed keeps its status for
the rest of the sequence. -/
theorem retry_monotone_terminal (ops : List QueueOp) :
    ∀ store : List Job, (store.map Job.id).Nodup →
      (applyOps ops store).length = store.length ∧
      (∀ (i : Nat) (a b : Job), store[i]? = some a → (applyOps ops store)[i]? = some b →
        b.id = a.id ∧ a.retryCount ≤ b.retryCount) ∧
      (SafeTrace store ops →
        ∀ (i : Nat) (a b : Job), store[i]? = some a → (applyOps ops store)[i]? = some b →
        (a.status = .completed ∨ a.status = .failed) → b.status = a.status) := by
  induction ops with
  | nil =>
    intro store hn
    refine ⟨rfl, ?_, ?_⟩
    · intro i a b ha hb
      rw [show applyOps [] store = store from rfl, ha] at hb
      cases hb
      exact ⟨rfl, le_refl _⟩
    · intro _ i a b ha hb _
      rw [show applyOps [] store = store from rfl, ha] at hb
      cases hb
      rfl
  | cons op rest ih =>
    intro store hn
    have hmap : applyOp op store = store.map (opFun op store) := applyOp_eq_map op store
    have hn' : ((applyOp op store).map Job.id).Nodup := by
      rw [hmap, List.map_map]
      have hcongr : store.map (Job.id ∘ opFun op store) = store.map Job.id :=
        List.map_congr_left (fun j _ => opFun_id op store j)
      rw [hcongr]
      exact hn
    obtain ⟨ihlen, ihmono, ihterm⟩ := ih (applyOp op store) hn'
    have hlen1 : (applyOp op store).length = store.length := by
      rw [hmap]
      exact List.length_map store (opFun op store)
    refine ⟨?_, ?_, ?_⟩
    · show (applyOps rest (applyOp op store)).length = store.length
      rw [ihlen, hlen1]
    · intro i a b ha hb
      have hmid : (applyOp op store)[i]? = some (opFun op store a) := by
        rw [hmap, List.getElem?_map, ha]
        rfl
      obtain ⟨hbid, hbrc⟩ := ihmono i (opFun op store a) b hmid hb
      exact ⟨by rw [hbid, opFun_id], le_trans (opFun_retry op store a) hbrc⟩
    · intro hst i a b ha hb ht
      cases hst with
      | cons _ _ _ hsafe hrest =>
        have hmem : a ∈ store := List.getElem?_mem ha
        have hfix : opFun op store a = a := opFun_terminal op store hn hsafe a hmem ht
        have hmid : (applyOp op store)[i]? = some a := by
          rw [hmap, List.getElem?_map, ha]
          simp [hfix]
        exact ihterm hrest i a b hmid hb ht

/-- A second Processing job used to give the safe trace a legal target. -/
def workingJob : Job :=
  { sampleJob with id := 1 }

/-- Witness for C4 amended: completing the Processing job with id 1
keeps the Completed job with id 0 in its terminal status, preserves ids
and never decreases retry_count. -/
theorem retry_monotone_terminal_witness :
    (applyOps [QueueOp.complete 5 1] [completedJob, workingJob]).length =
      ([completedJob, workingJob] : List Job).length ∧
    ((markCompletedRow 5 workingJob).id = workingJob.id ∧
      workingJob.retryCount ≤ (markCompletedRow 5 workingJob).retryCount) ∧
    completedJob.status = completedJob.status :=
  have h := retry_monotone_terminal [QueueOp.complete 5 1] [completedJob, workingJob] (by decide)
  ⟨h.1,
   h.2.1 1 workingJob (markCompletedRow 5 workingJob) (by rfl) (by decide),
   h.2.2 (SafeTrace.cons _ _ _
       (show ∀ j ∈ [completedJob, workingJob], j.id = 1 → j.status = .processing by decide)
       (SafeTrace.nil _)) 0 completedJob completedJob
     (by rfl) (by decide) (Or.inl rfl)⟩

end OutreachIQ
